import Mathlib

/-!
Verification development for the slideshow build pipeline of
`slideshow_manager.py` (class `SlideshowManager`).

The embedding is shallow: filenames are lists of characters, the contents
of the ephemeral staging directory `.slideshow_temp` are a finite set of
entry names, and the effectful steps of the background job
(`_create_slideshow_thread`) are modelled as pure functions over an
explicit filesystem state, with the externally varying effects (whether a
`symlink_to` call succeeds, the encoder's exit code and captured streams,
the output file's size) passed in as parameters.
-/

namespace Slideshow

/-- Filenames and paths are modelled as lists of characters. -/
abbrev Name := List Char

/-! ### Decimal formatting, Python `f"{n:04d}"` -/

/-- The character of one decimal digit (`d < 10`). -/
def digitChar (d : Nat) : Char := Char.ofNat (48 + d)

/-- Little-endian decimal digits of `n`, with explicit fuel so that the
recursion is structural (the fuel `n` itself always suffices). -/
def decDigitsAux (fuel n : Nat) : List Nat :=
  match fuel with
  | 0 => []
  | fuel + 1 => if n = 0 then [] else n % 10 :: decDigitsAux fuel (n / 10)

/-- Little-endian decimal digits of `n` (empty for `n = 0`). -/
def decDigits (n : Nat) : List Nat := decDigitsAux n n

/-- Evaluation of a little-endian decimal digit list back to a number;
a left inverse of `decDigits`. -/
def ofDecDigits (l : List Nat) : Nat := l.foldr (fun d acc => d + 10 * acc) 0

/-- The decimal representation of `n`, most significant digit first:
Python `"%d" % n`. -/
def decChars (n : Nat) : List Char :=
  if n = 0 then ['0'] else ((decDigits n).reverse).map digitChar

/-- Python `f"{n:0wd}"`: the decimal representation of `n`, left-padded
with `'0'` to a minimum width of `w` (numbers with more than `w` digits
are not truncated). -/
def zeroPad (w : Nat) (n : Nat) : Name :=
  List.replicate (w - (decChars n).length) '0' ++ decChars n

/-- The extension `".png"` given to every staged link. -/
def pngExt : Name := (".png").data

/-- The entry name the staging loop creates for the image at 0-based
position `i` of the input list: `f"{i+1:04d}.png"` (line 1316). -/
def linkName (i : Nat) : Name := zeroPad 4 (i + 1) ++ pngExt

/-! ### Staging (`_create_slideshow_thread`, lines 1307-1320) -/

/-- One staged input image: its resolved source path together with whether
the `symlink_to` call for it succeeds (a filesystem fault during link
creation is modelled as data rather than as a real exception). -/
structure Image where
  path : Name
  linkOk : Bool
deriving DecidableEq

/-- Contents of the `.slideshow_temp` directory: the set of entry names
present in it. -/
abbrev DirContents := Finset Name

deriving instance DecidableEq for Except

/-- The filesystem state the background job touches: whether
`.slideshow_temp` exists and what it contains. -/
structure FS where
  tempDirExists : Bool
  tempContents : DirContents
deriving DecidableEq

/-- Line 1309, `temp_dir.mkdir(exist_ok=True)`: creates the directory if
absent and keeps the existing contents if present; it does not fail and
does not clear anything. -/
def mkdirExistOk (fs : FS) : FS :=
  { tempDirExists := true
    tempContents := if fs.tempDirExists then fs.tempContents else ∅ }

/-- One iteration of the staging loop at 0-based index `i`
(lines 1314-1319): if an entry with the link's name already exists it is
unlinked, then the symlink is created; a failing `symlink_to` raises out
of the loop, and the error value carries the directory contents at the
moment of the fault. -/
def stageStep (c : DirContents) (i : Nat) (img : Image) :
    Except DirContents DirContents :=
  let c1 := c.erase (linkName i)
  if img.linkOk then .ok (insert (linkName i) c1) else .error c1

/-- The staging loop over the input images (lines 1314-1319), the 0-based
index of the first image being `i`. On success the result is the final
directory contents; on the first link failure the loop aborts, returning
the contents at that point (nothing created so far is removed). -/
def stageLoop (i : Nat) (imgs : List Image) (c : DirContents) :
    Except DirContents DirContents :=
  match imgs with
  | [] => .ok c
  | img :: rest =>
    match stageStep c i img with
    | .ok c1 => stageLoop (i + 1) rest c1
    | .error c1 => .error c1

/-! ### The background job (`_create_slideshow_thread`, lines 1300-1387) -/

/-- `frame_hold_seconds`: each image is held for 5 seconds
(`-framerate 1/5`, and the duration estimate `len(visible_images) * 5` on
line 1355). -/
def frameHoldSeconds : Nat := 5

/-- The outcome reported back by the background job: the success dialog
(lines 1350-1363), the `CalledProcessError` handler for a non-zero
encoder exit (lines 1367-1377), or the generic exception handler
(lines 1379-1383). -/
inductive RunOutcome where
  | success (sizeBytes : Nat) (imageCount : Nat) (durationEstimate : Nat)
  | ffmpegError (returncode : Int) (stdoutS : String) (stderrS : String)
  | otherError
deriving DecidableEq

/-- The observable state when the background thread exits: the filesystem
state, the `is_creating` flag, whether the encoder process was started at
all, and the reported outcome. -/
structure ThreadResult where
  fs : FS
  isCreating : Bool
  encoderInvoked : Bool
  outcome : RunOutcome
deriving DecidableEq

/-- `_create_slideshow_thread` (lines 1300-1387). Control flow from the
source: create the staging directory with `exist_ok=True`; run the
numbered-symlink loop (a fault there escapes to the generic `except` —
no rollback of the links already made); run ffmpeg with `check=True`
(a non-zero exit raises `CalledProcessError` before the cleanup lines
1344-1346 are reached, so the staging directory survives); only on exit
code 0 unlink every staged entry, remove the directory, and report the
success message with the output size and `len(visible_images) * 5`
seconds. The `finally` block (lines 1385-1386) resets `is_creating` on
every path. Parameters `encoderExit`, `encStdout`, `encStderr` model the
external encoder process, `outputSize` models `Path(output_name).stat().st_size`. -/
def createSlideshowThread (fs0 : FS) (images : List Image)
    (encoderExit : Int) (encStdout encStderr : String) (outputSize : Nat) :
    ThreadResult :=
  let fs1 := mkdirExistOk fs0
  match stageLoop 0 images fs1.tempContents with
  | .error c =>
    { fs := { tempDirExists := true, tempContents := c }
      isCreating := false
      encoderInvoked := false
      outcome := .otherError }
  | .ok c =>
    if encoderExit = 0 then
      { fs := { tempDirExists := false, tempContents := ∅ }
        isCreating := false
        encoderInvoked := true
        outcome := .success outputSize images.length
          (images.length * frameHoldSeconds) }
    else
      { fs := { tempDirExists := true, tempContents := c }
        isCreating := false
        encoderInvoked := true
        outcome := .ffmpegError encoderExit encStdout encStderr }

/-! ### The interactive entry point (`create_slideshow`, lines 1184-1240) -/

/-- The interactive state `create_slideshow` reads: the `is_creating`
flag, the loaded image list, and the hidden set. -/
structure AppState where
  isCreating : Bool
  images : List Name
  hiddenImages : Finset Name
deriving DecidableEq

/-- The possible outcomes of a `create_slideshow` call: rejected because a
build is already running (lines 1186-1192), rejected because every image
is hidden (lines 1196-1203), rejected because fewer than two images are
visible (lines 1205-1212), abandoned because the user cancelled the name
dialog or the overwrite confirmation (lines 1222-1223 and 1232-1234), or
accepted with the visible list handed to the background thread
(lines 1237-1240). -/
inductive SubmitOutcome where
  | alreadyInProgress
  | noVisibleImages
  | tooFewImages (n : Nat)
  | dialogCancelled
  | started (visible : List Name) (outputName : Name)
deriving DecidableEq

/-- `create_slideshow` (lines 1184-1240). The output-name dialog and the
overwrite confirmation are folded into the `dialogResult` parameter:
`none` models the user cancelling at either prompt, `some outName` the
finally confirmed output name. Only on acceptance is `is_creating` set
and the background thread started; every rejected or cancelled call
leaves the state unchanged. -/
def create_slideshow (s : AppState) (dialogResult : Option Name) :
    SubmitOutcome × AppState :=
  if s.isCreating then (.alreadyInProgress, s)
  else
    let visible := s.images.filter (fun p => !(decide (p ∈ s.hiddenImages)))
    if visible.isEmpty then (.noVisibleImages, s)
    else if visible.length < 2 then (.tooFewImages visible.length, s)
    else
      match dialogResult with
      | none => (.dialogCancelled, s)
      | some outName => (.started visible outName, { s with isCreating := true })

/-! ### Hidden-set toggling (`toggle_hide`, lines 1145-1160) -/

/-- The hidden-set mutation of `toggle_hide` (lines 1147-1155): remove the
path if present, add it otherwise. The operation never consults the
filesystem, so it is total in the path. -/
def toggle_hide (hidden : Finset Name) (path : Name) : Finset Name :=
  if path ∈ hidden then hidden.erase path else insert path hidden

/-! ### Directory scan (`load_images`, lines 936-937) -/

/-- Glob pattern `*.<ext>` against a filename: `*` matches any (possibly
empty) prefix, so the pattern matches exactly the names ending in `'.'`
followed by `ext`; matching is case-sensitive, as `Path.glob` is on
POSIX. -/
def globExt (ext : Name) (name : Name) : Bool := decide (('.' :: ext) <:+ name)

/-- The scan filter of `load_images` (lines 936-937): the union of the
four glob patterns `*.jpg`, `*.JPG`, `*.png`, `*.PNG`. -/
def scanIncluded (name : Name) : Bool :=
  globExt (("jpg").data) name || globExt (("JPG").data) name ||
  globExt (("png").data) name || globExt (("PNG").data) name

/-- Modelled from the spec for a refinement comparison (not from the
source): a file "is included iff its extension equals jpg or png under
case-insensitive comparison", i.e. the lowercased filename ends in
`".jpg"` or `".png"`. -/
def specCaseInsensitiveIncluded (name : Name) : Bool :=
  globExt (("jpg").data) (name.map Char.toLower) ||
  globExt (("png").data) (name.map Char.toLower)

/-! ### Helper lemmas on the decimal formatting -/

theorem ofDecDigits_cons (d : Nat) (l : List Nat) :
    ofDecDigits (d :: l) = d + 10 * ofDecDigits l := rfl

theorem decDigitsAux_zero (fuel : Nat) : decDigitsAux fuel 0 = [] := by
  cases fuel <;> simp [decDigitsAux]

theorem decDigitsAux_ne_nil {fuel n : Nat} (hn : 0 < n) (hf : n ≤ fuel) :
    decDigitsAux fuel n ≠ [] := by
  cases fuel with
  | zero => omega
  | succ fuel =>
    have h : ¬ n = 0 := by omega
    simp [decDigitsAux, h]

theorem ofDecDigits_decDigitsAux {fuel : Nat} :
    ∀ {n : Nat}, n ≤ fuel → ofDecDigits (decDigitsAux fuel n) = n := by
  induction fuel with
  | zero =>
    intro n h
    have h0 : n = 0 := by omega
    simp [h0, decDigitsAux, ofDecDigits]
  | succ fuel ih =>
    intro n h
    by_cases hn : n = 0
    · simp [hn, decDigitsAux, ofDecDigits]
    · have hdiv : n / 10 ≤ fuel := by
        have : n / 10 < n := Nat.div_lt_self (by omega) (by omega)
        omega
      simp only [decDigitsAux, if_neg hn, ofDecDigits_cons, ih hdiv]
      omega

theorem decDigitsAux_lt {fuel : Nat} :
    ∀ {n d : Nat}, d ∈ decDigitsAux fuel n → d < 10 := by
  induction fuel with
  | zero => intro n d hd; simp [decDigitsAux] at hd
  | succ fuel ih =>
    intro n d hd
    by_cases hn : n = 0
    · simp [decDigitsAux, hn] at hd
    · simp only [decDigitsAux, if_neg hn, List.mem_cons] at hd
      rcases hd with h | h
      · omega
      · exact ih h

theorem decDigitsAux_getLast?_ne_zero {fuel : Nat} :
    ∀ {n d : Nat}, 0 < n → n ≤ fuel →
    (decDigitsAux fuel n).getLast? = some d → d ≠ 0 := by
  induction fuel with
  | zero => intro n d hn hf _; omega
  | succ fuel ih =>
    intro n d hn hf hlast
    have hn0 : ¬ n = 0 := by omega
    simp only [decDigitsAux, if_neg hn0] at hlast
    by_cases hq : n / 10 = 0
    · rw [hq, decDigitsAux_zero] at hlast
      simp only [List.getLast?_singleton, Option.some.injEq] at hlast
      omega
    · have hq1 : 0 < n / 10 := by omega
      have hle : n / 10 ≤ fuel := by
        have : n / 10 < n := Nat.div_lt_self (by omega) (by omega)
        omega
      obtain ⟨b, L, hbl⟩ :=
        List.exists_cons_of_ne_nil (decDigitsAux_ne_nil hq1 hle)
      rw [hbl, List.getLast?_cons_cons, ← hbl] at hlast
      exact ih hq1 hle hlast

theorem digitChar_toNat {d : Nat} (h : d < 10) : (digitChar d).toNat = 48 + d := by
  interval_cases d <;> decide

theorem digitChar_inj {a b : Nat} (ha : a < 10) (hb : b < 10)
    (h : digitChar a = digitChar b) : a = b := by
  have h2 := congrArg Char.toNat h
  rw [digitChar_toNat ha, digitChar_toNat hb] at h2
  omega

theorem digitChar_ne_zero_char {d : Nat} (hd : d < 10) (h : d ≠ 0) :
    digitChar d ≠ '0' := by
  intro hc
  have h2 := congrArg Char.toNat hc
  rw [digitChar_toNat hd] at h2
  have h0 : ('0').toNat = 48 := by decide
  rw [h0] at h2
  omega

theorem map_digitChar_inj : ∀ {l1 l2 : List Nat}, (∀ d ∈ l1, d < 10) →
    (∀ d ∈ l2, d < 10) → l1.map digitChar = l2.map digitChar → l1 = l2 := by
  intro l1
  induction l1 with
  | nil =>
    intro l2 _ _ h
    cases l2 with
    | nil => rfl
    | cons b t => simp at h
  | cons a t ih =>
    intro l2 h1 h2 h
    cases l2 with
    | nil => simp at h
    | cons b t2 =>
      simp only [List.map_cons, List.cons.injEq] at h
      have ha : a < 10 := h1 a (by simp)
      have hb : b < 10 := h2 b (by simp)
      have hab : a = b := digitChar_inj ha hb h.1
      have ht : t = t2 :=
        ih (fun d hd => h1 d (by simp [hd])) (fun d hd => h2 d (by simp [hd])) h.2
      rw [hab, ht]

theorem decDigits_inj {m n : Nat} (h : decDigits m = decDigits n) : m = n := by
  have hm : ofDecDigits (decDigits m) = m := ofDecDigits_decDigitsAux (le_refl m)
  have hn : ofDecDigits (decDigits n) = n := ofDecDigits_decDigitsAux (le_refl n)
  rw [← hm, ← hn, h]

theorem decChars_inj {m n : Nat} (h : decChars m = decChars n) : m = n := by
  have key : ∀ {a : Nat}, a ≠ 0 → decChars a = ['0'] → False := by
    intro a ha h0
    rw [decChars, if_neg ha] at h0
    have h1 : (([(0 : Nat)]).map digitChar) = ['0'] := by decide
    have h2 : (decDigits a).reverse = [0] :=
      map_digitChar_inj (fun d hd => decDigitsAux_lt (List.mem_reverse.mp hd))
        (by intro d hd; simp at hd; omega) (h0.trans h1.symm)
    have h3 : decDigits a = [0] := by
      have h5 := congrArg List.reverse h2
      simpa using h5
    have h4 : ofDecDigits (decDigits a) = a := ofDecDigits_decDigitsAux (le_refl a)
    rw [h3] at h4
    simp [ofDecDigits] at h4
    exact ha h4.symm
  by_cases hm : m = 0 <;> by_cases hn : n = 0
  · omega
  · exfalso
    rw [show decChars m = ['0'] from by rw [decChars, if_pos hm]] at h
    exact key hn h.symm
  · exfalso
    rw [show decChars n = ['0'] from by rw [decChars, if_pos hn]] at h
    exact key hm h
  · rw [decChars, if_neg hm, decChars, if_neg hn] at h
    have h2 : (decDigits m).reverse = (decDigits n).reverse :=
      map_digitChar_inj (fun d hd => decDigitsAux_lt (List.mem_reverse.mp hd))
        (fun d hd => decDigitsAux_lt (List.mem_reverse.mp hd)) h
    have h3 : decDigits m = decDigits n := by
      have := congrArg List.reverse h2
      simpa using this
    exact decDigits_inj h3

theorem decChars_head?_ne_zero {n : Nat} (hn : 0 < n) :
    (decChars n).head? ≠ some '0' := by
  rw [decChars, if_neg (by omega : ¬ n = 0)]
  rw [List.head?_map, List.head?_reverse]
  intro h
  rcases Option.map_eq_some'.mp h with ⟨d, hd, hdc⟩
  have hd0 : d ≠ 0 := decDigitsAux_getLast?_ne_zero hn (le_refl n) hd
  have hdm : d ∈ decDigits n := List.mem_of_getLast?_eq_some hd
  have hdlt : d < 10 := decDigitsAux_lt hdm
  exact digitChar_ne_zero_char hdlt hd0 hdc

theorem pad_cancel : ∀ (a b : Nat) {l1 l2 : List Char},
    l1.head? ≠ some '0' → l2.head? ≠ some '0' →
    List.replicate a '0' ++ l1 = List.replicate b '0' ++ l2 → l1 = l2 := by
  intro a
  induction a with
  | zero =>
    intro b l1 l2 h1 h2 h
    cases b with
    | zero => simpa using h
    | succ b =>
      exfalso
      simp only [List.replicate_zero, List.replicate_succ, List.nil_append,
        List.cons_append] at h
      apply h1
      rw [h]
      rfl
  | succ a ih =>
    intro b l1 l2 h1 h2 h
    cases b with
    | zero =>
      exfalso
      simp only [List.replicate_zero, List.replicate_succ, List.nil_append,
        List.cons_append] at h
      apply h2
      rw [← h]
      rfl
    | succ b =>
      simp only [List.replicate_succ, List.cons_append, List.cons.injEq] at h
      exact ih b h1 h2 h.2

theorem zeroPad_inj_pos {m n : Nat} (hm : 0 < m) (hn : 0 < n)
    (h : zeroPad 4 m = zeroPad 4 n) : m = n :=
  decChars_inj
    (pad_cancel _ _ (decChars_head?_ne_zero hm) (decChars_head?_ne_zero hn) h)

theorem linkName_inj {i j : Nat} (h : linkName i = linkName j) : i = j := by
  have h1 : zeroPad 4 (i + 1) = zeroPad 4 (j + 1) := List.append_cancel_right h
  have h2 := zeroPad_inj_pos (by omega) (by omega) h1
  omega

/-! ### Helper lemmas on the staging loop -/

theorem insert_erase_self {a : Name} {s : DirContents} :
    insert a (s.erase a) = insert a s := by
  ext x
  simp only [Finset.mem_insert, Finset.mem_erase]
  constructor
  · rintro (h | ⟨_, h⟩)
    · exact Or.inl h
    · exact Or.inr h
  · rintro (h | h)
    · exact Or.inl h
    · by_cases hx : x = a
      · exact Or.inl hx
      · exact Or.inr ⟨hx, h⟩

theorem stageLoop_ok {imgs : List Image} :
    ∀ {i : Nat} {c : DirContents}, (∀ img ∈ imgs, img.linkOk = true) →
    stageLoop i imgs c =
      .ok (c ∪ ((List.range' i imgs.length).map linkName).toFinset) := by
  induction imgs with
  | nil => intro i c _; simp [stageLoop, List.range']
  | cons img rest ih =>
    intro i c hok
    have h1 : img.linkOk = true := hok img (by simp)
    simp only [stageLoop, stageStep, h1, if_true]
    rw [insert_erase_self, ih (fun x hx => hok x (by simp [hx]))]
    congr 1
    simp only [List.length_cons, List.range', List.map_cons, List.toFinset_cons]
    rw [Finset.insert_union, Finset.union_insert]

theorem stageLoop_error {good : List Image} :
    ∀ {i : Nat} {c : DirContents} {bad : Image} {rest : List Image},
    (∀ img ∈ good, img.linkOk = true) → bad.linkOk = false →
    stageLoop i (good ++ bad :: rest) c =
      .error ((c ∪ ((List.range' i good.length).map linkName).toFinset).erase
        (linkName (i + good.length))) := by
  induction good with
  | nil =>
    intro i c bad rest _ hbad
    simp [stageLoop, stageStep, hbad, List.range']
  | cons g t ih =>
    intro i c bad rest hok hbad
    have h1 : g.linkOk = true := hok g (by simp)
    simp only [List.cons_append, stageLoop, stageStep, h1, if_true]
    rw [insert_erase_self]
    have hih := @ih (i + 1) (insert (linkName i) c) bad rest
      (fun x hx => hok x (by simp [hx])) hbad
    rw [show t.append (bad :: rest) = t ++ bad :: rest from rfl, hih]
    have hidx : i + (g :: t).length = (i + 1) + t.length := by
      simp only [List.length_cons]
      omega
    have hset : (c ∪ ((List.range' i (g :: t).length).map linkName).toFinset)
        = insert (linkName i) c ∪
          ((List.range' (i + 1) t.length).map linkName).toFinset := by
      simp only [List.length_cons, List.range', List.map_cons, List.toFinset_cons]
      rw [Finset.insert_union, Finset.union_insert]
    rw [hset, hidx]

theorem map_range'_shift {α : Type} (f : Nat → α) :
    ∀ (n s : Nat),
    (List.range' (s + 1) n).map f = (List.range' s n).map (fun i => f (i + 1)) := by
  intro n
  induction n with
  | zero => intro s; simp [List.range']
  | succ n ih =>
    intro s
    simp only [List.range', List.map_cons]
    rw [ih (s + 1)]

/-! ### Claim C1 -/

/-- Claim C1 counterexample: a job with one successfully staged image
whose encoder exits with code 1 ends with the staging directory still
present on the filesystem, refuting the claim that the staging directory
is removed on every exit path. -/
theorem c1_counterexample :
    (createSlideshowThread ⟨false, ∅⟩ [⟨(("a.jpg").data), true⟩] 1 ("")
      (("boom")) 0).fs.tempDirExists = true := by
  decide

/-- Claim C1 amended: the staging directory is absent when the job ends
iff staging succeeded and the encoder exited with code 0; after an
encoder failure, or after a fault during staging, the directory survives
the job — the `finally` block only resets `is_creating`. -/
theorem c1_amended (fs0 : FS) (images : List Image) (encoderExit : Int)
    (encStdout encStderr : String) (outputSize : Nat) :
    (createSlideshowThread fs0 images encoderExit encStdout encStderr
        outputSize).fs.tempDirExists = false
      ↔ ((∃ c, stageLoop 0 images (mkdirExistOk fs0).tempContents = .ok c)
          ∧ encoderExit = 0) := by
  cases h : stageLoop 0 images (mkdirExistOk fs0).tempContents with
  | error c => simp [createSlideshowThread, h]
  | ok c =>
    by_cases he : encoderExit = 0 <;> simp [createSlideshowThread, h, he]

/-! ### Claim C2 -/

/-- Claim C2 counterexample: with two images where the second link
creation fails, the staging directory survives and the link already
created for the first image is still inside it — the claimed rollback of
partial staging does not happen. -/
theorem c2_counterexample :
    (createSlideshowThread ⟨false, ∅⟩ [⟨(("a.jpg").data), true⟩,
        ⟨(("b.jpg").data), false⟩] 0 ("") ("") 0).fs.tempDirExists = true
    ∧ linkName 0 ∈ (createSlideshowThread ⟨false, ∅⟩ [⟨(("a.jpg").data), true⟩,
        ⟨(("b.jpg").data), false⟩] 0 ("") ("") 0).fs.tempContents := by
  constructor
  · decide
  · decide

/-- Claim C2 amended: when an individual link creation fails after some
links were created, the encoder is never invoked for that job and the
fault lands in the generic error handler, but nothing staged so far is
removed: the staging directory survives, still containing the link of
every index before the failing one (only the failing index's previously
existing entry was unlinked). -/
theorem c2_amended (fs0 : FS) (good : List Image) (bad : Image)
    (rest : List Image) (encoderExit : Int) (encStdout encStderr : String)
    (outputSize : Nat) (hfresh : fs0.tempDirExists = false)
    (hgood : ∀ img ∈ good, img.linkOk = true) (hbad : bad.linkOk = false) :
    createSlideshowThread fs0 (good ++ bad :: rest) encoderExit encStdout
        encStderr outputSize
      = { fs := ⟨true, ((((List.range' 0 good.length).map linkName).toFinset).erase
            (linkName good.length))⟩
          isCreating := false
          encoderInvoked := false
          outcome := .otherError }
    ∧ ∀ j < good.length, linkName j ∈
        (createSlideshowThread fs0 (good ++ bad :: rest) encoderExit encStdout
          encStderr outputSize).fs.tempContents := by
  have hc : (mkdirExistOk fs0).tempContents = ∅ := by
    simp [mkdirExistOk, hfresh]
  have herr := @stageLoop_error good 0 ((mkdirExistOk fs0).tempContents)
    bad rest hgood hbad
  rw [hc] at herr
  simp only [Finset.empty_union, Nat.zero_add] at herr
  constructor
  · simp [createSlideshowThread, hc, herr]
  · intro j hj
    simp only [createSlideshowThread, hc, herr]
    rw [Finset.mem_erase]
    refine ⟨fun hc2 => ?_, ?_⟩
    · have := linkName_inj hc2
      omega
    · rw [List.mem_toFinset, List.mem_map]
      refine ⟨j, ?_, rfl⟩
      rw [List.mem_range'_1]
      omega

/-- Claim C2 amended, witness at a concrete input: one successful link
followed by a failing one. -/
theorem c2_amended_witness :
    createSlideshowThread ⟨false, ∅⟩ [⟨(("a.jpg").data), true⟩,
        ⟨(("b.jpg").data), false⟩] 7 ("") ("") 3
      = { fs := ⟨true, ((((List.range' 0 1).map linkName).toFinset).erase
            (linkName 1))⟩
          isCreating := false
          encoderInvoked := false
          outcome := .otherError }
    ∧ linkName 0 ∈ (createSlideshowThread ⟨false, ∅⟩ [⟨(("a.jpg").data), true⟩,
        ⟨(("b.jpg").data), false⟩] 7 ("") ("") 3).fs.tempContents := by
  have h := c2_amended ⟨false, ∅⟩ [⟨(("a.jpg").data), true⟩]
    ⟨(("b.jpg").data), false⟩ [] 7 ("") ("") 3 rfl (by decide) rfl
  exact ⟨h.1, h.2 0 (by decide)⟩

/-! ### Claim C3 -/

/-- Claim C3 counterexample: staging one image into a directory left over
from a prior run that still contains an entry `stale.png` keeps that
entry, so afterwards the directory does not contain exactly the links of
the current input list. -/
theorem c3_counterexample :
    stageLoop 0 [⟨(("a.jpg").data), true⟩]
        (mkdirExistOk ⟨true, {(("stale.png").data)}⟩).tempContents
      = .ok (insert (linkName 0) {(("stale.png").data)})
    ∧ stageLoop 0 [⟨(("a.jpg").data), true⟩]
        (mkdirExistOk ⟨true, {(("stale.png").data)}⟩).tempContents
      ≠ .ok {linkName 0} := by
  constructor
  · decide
  · decide

/-- Claim C3 amended: when the staging directory already exists, staging
does not fail (`mkdir` with `exist_ok=True`), and it does not clear the
prior contents wholesale: it unlinks and recreates only the entry names
of the current indices, so after staging the directory holds the prior
contents united with the links of the current input — leftover entries
under any other name survive. -/
theorem c3_amended (fs0 : FS) (images : List Image)
    (hex : fs0.tempDirExists = true)
    (hok : ∀ img ∈ images, img.linkOk = true) :
    stageLoop 0 images (mkdirExistOk fs0).tempContents
      = .ok (fs0.tempContents ∪
          ((List.range' 0 images.length).map linkName).toFinset) := by
  have hc : (mkdirExistOk fs0).tempContents = fs0.tempContents := by
    simp [mkdirExistOk, hex]
  rw [hc, stageLoop_ok hok]

/-- Claim C3 amended, witness at a concrete input: a leftover entry plus
one staged image. -/
theorem c3_amended_witness :
    stageLoop 0 [⟨(("a.jpg").data), true⟩]
        (mkdirExistOk ⟨true, {(("stale.png").data)}⟩).tempContents
      = .ok (({(("stale.png").data)} : DirContents) ∪
          ((List.range' 0 1).map linkName).toFinset) :=
  c3_amended ⟨true, {(("stale.png").data)}⟩ [⟨(("a.jpg").data), true⟩]
    rfl (by decide)

/-! ### Claim C4 -/

/-- Claim C4 counterexample: handing an empty image list to the
background job does not produce a staging failure: the staging directory
is created, the encoder is invoked (and fails, here with exit code 1),
and the directory is left behind. -/
theorem c4_counterexample :
    (createSlideshowThread ⟨false, ∅⟩ [] 1 ("")
        (("no images matched")) 0).encoderInvoked = true
    ∧ (createSlideshowThread ⟨false, ∅⟩ [] 1 ("")
        (("no images matched")) 0).fs.tempDirExists = true
    ∧ (createSlideshowThread ⟨false, ∅⟩ [] 1 ("")
        (("no images matched")) 0).outcome
      = .ffmpegError 1 ("") (("no images matched")) := by
  refine ⟨?_, ?_, ?_⟩ <;> decide

/-- Claim C4 amended: staging an empty list does not fail before the
encoder: the (empty) staging directory is created and the encoder is
invoked on it, the job ending as an encoder failure with the directory
left behind; zero-image inputs are instead rejected upstream by
`create_slideshow`, which refuses to start a job when no image is
visible. -/
theorem c4_amended (fs0 : FS) (encoderExit : Int)
    (encStdout encStderr : String) (outputSize : Nat)
    (hfresh : fs0.tempDirExists = false) (he : encoderExit ≠ 0) :
    (createSlideshowThread fs0 [] encoderExit encStdout encStderr outputSize
      = { fs := ⟨true, ∅⟩
          isCreating := false
          encoderInvoked := true
          outcome := .ffmpegError encoderExit encStdout encStderr })
    ∧ ∀ (s : AppState) (d : Option Name),
        s.isCreating = false → s.images = [] →
        create_slideshow s d = (.noVisibleImages, s) := by
  constructor
  · simp [createSlideshowThread, mkdirExistOk, hfresh, stageLoop, he]
  · intro s d h1 h2
    simp [create_slideshow, h1, h2]

/-- Claim C4 amended, witness at a concrete input. -/
theorem c4_amended_witness :
    (createSlideshowThread ⟨false, ∅⟩ [] 1 ("") (("boom2")) 5
      = { fs := ⟨true, ∅⟩
          isCreating := false
          encoderInvoked := true
          outcome := .ffmpegError 1 ("") (("boom2")) })
    ∧ create_slideshow ⟨false, [], ∅⟩ none
      = (.noVisibleImages, ⟨false, [], ∅⟩) := by
  have h := c4_amended ⟨false, ∅⟩ 1 ("") (("boom2")) 5 rfl (by decide)
  exact ⟨h.1, h.2 ⟨false, [], ∅⟩ none rfl rfl⟩

/-! ### Claim C5 -/

/-- Claim C5 (confirmed): staging a list of `N ≥ 1` images whose link
creations all succeed, into a fresh directory, creates exactly `N` links;
their names are the 1-based input positions, zero-padded to width 4, with
extension `.png`, the indices running contiguously from 1 to `N` with no
gaps (the name list is the image of `1, ..., N` in input order, and its
`N` entries are pairwise distinct, so the resulting directory has exactly
`N` entries). -/
theorem c5_staged_names (images : List Image)
    (hN : 1 ≤ images.length)
    (hok : ∀ img ∈ images, img.linkOk = true) :
    stageLoop 0 images ∅
        = .ok (((List.range' 1 images.length).map
            (fun k => zeroPad 4 k ++ pngExt)).toFinset)
    ∧ ((List.range' 1 images.length).map
        (fun k => zeroPad 4 k ++ pngExt)).length = images.length
    ∧ (((List.range' 1 images.length).map
        (fun k => zeroPad 4 k ++ pngExt)).toFinset).card = images.length := by
  have hshift : ((List.range' 1 images.length).map
      (fun k => zeroPad 4 k ++ pngExt)) =
      (List.range' 0 images.length).map linkName :=
    map_range'_shift (fun k => zeroPad 4 k ++ pngExt) images.length 0
  have hnodup : ((List.range' 1 images.length).map
      (fun k => zeroPad 4 k ++ pngExt)).Nodup := by
    refine List.Nodup.map_on ?_ (List.nodup_range' _ _)
    intro x hx y hy hxy
    have hx1 : 1 ≤ x := (List.mem_range'_1.mp hx).1
    have hy1 : 1 ≤ y := (List.mem_range'_1.mp hy).1
    exact zeroPad_inj_pos (by omega) (by omega) (List.append_cancel_right hxy)
  refine ⟨?_, ?_, ?_⟩
  · rw [hshift, stageLoop_ok hok, Finset.empty_union]
  · simp
  · rw [List.toFinset_card_of_nodup hnodup]
    simp

/-- Claim C5 witness at a concrete input: three images. -/
theorem c5_witness :
    stageLoop 0 [⟨(("a.jpg").data), true⟩, ⟨(("b.png").data), true⟩,
        ⟨(("c.jpg").data), true⟩] ∅
        = .ok (((List.range' 1 3).map
            (fun k => zeroPad 4 k ++ pngExt)).toFinset)
    ∧ ((List.range' 1 3).map (fun k => zeroPad 4 k ++ pngExt)).length = 3
    ∧ (((List.range' 1 3).map
        (fun k => zeroPad 4 k ++ pngExt)).toFinset).card = 3 :=
  c5_staged_names [⟨(("a.jpg").data), true⟩, ⟨(("b.png").data), true⟩,
    ⟨(("c.jpg").data), true⟩] (by decide) (by decide)

/-! ### Claim C6 -/

/-- Claim C6 (confirmed): a `create_slideshow` call made while a build is
already running is rejected immediately and leaves the whole state —
including the in-flight job's flag — untouched; conversely a job is only
ever started from the non-running state, so at most one build is in
flight at a time. -/
theorem c6_exclusive_submit (s : AppState) (d : Option Name) :
    (s.isCreating = true → create_slideshow s d = (.alreadyInProgress, s))
    ∧ (∀ v n, (create_slideshow s d).1 = .started v n →
        s.isCreating = false ∧ ((create_slideshow s d).2).isCreating = true) := by
  constructor
  · intro h
    simp [create_slideshow, h]
  · intro v n h
    by_cases hc : s.isCreating = true
    · simp [create_slideshow, hc] at h
    · have hcf : s.isCreating = false := by
        revert hc
        cases s.isCreating <;> simp
      refine ⟨hcf, ?_⟩
      revert h
      cases d with
      | none =>
        simp only [create_slideshow, hcf]
        split_ifs <;> simp
      | some nm =>
        simp only [create_slideshow, hcf]
        split_ifs <;> simp

/-- Claim C6 witness at concrete inputs: a rejected second submit while
running, and an accepted submit from the idle state. -/
theorem c6_witness :
    create_slideshow ⟨true, [(("a.jpg").data)], ∅⟩ none
        = (.alreadyInProgress, ⟨true, [(("a.jpg").data)], ∅⟩)
    ∧ ((⟨false, [(("a.jpg").data), (("b.jpg").data)], ∅⟩ : AppState).isCreating
          = false
        ∧ (create_slideshow ⟨false, [(("a.jpg").data), (("b.jpg").data)], ∅⟩
            (some (("out.mp4").data))).2.isCreating = true) :=
  ⟨(c6_exclusive_submit ⟨true, [(("a.jpg").data)], ∅⟩ none).1 rfl,
   (c6_exclusive_submit ⟨false, [(("a.jpg").data), (("b.jpg").data)], ∅⟩
      (some (("out.mp4").data))).2
     [(("a.jpg").data), (("b.jpg").data)] (("out.mp4").data) (by decide)⟩

/-! ### Claim C7 -/

/-- Claim C7 (confirmed): a job whose staging succeeds and whose encoder
exits with code 0 reports success carrying the output file's size, the
staged image count, and a duration estimate of
`image_count * frame_hold_seconds` with `frame_hold_seconds = 5` (the
code computes it as the integer `len(visible_images) * 5` seconds). -/
theorem c7_success_report (fs0 : FS) (images : List Image)
    (encoderExit : Int) (encStdout encStderr : String) (outputSize : Nat)
    (hok : ∀ img ∈ images, img.linkOk = true) (hexit : encoderExit = 0) :
    (createSlideshowThread fs0 images encoderExit encStdout encStderr
        outputSize).outcome
      = .success outputSize images.length (images.length * frameHoldSeconds) := by
  subst hexit
  have h := @stageLoop_ok images 0 ((mkdirExistOk fs0).tempContents) hok
  simp [createSlideshowThread, h]

/-- Claim C7 witness at a concrete input: a successful 3-image job
reports `image_count = 3` and a duration estimate of 15 seconds. -/
theorem c7_witness :
    (createSlideshowThread ⟨false, ∅⟩ [⟨(("a.jpg").data), true⟩,
        ⟨(("b.jpg").data), true⟩, ⟨(("c.jpg").data), true⟩] 0 ("") ("")
        7).outcome
      = .success 7 3 15 :=
  c7_success_report ⟨false, ∅⟩ [⟨(("a.jpg").data), true⟩,
    ⟨(("b.jpg").data), true⟩, ⟨(("c.jpg").data), true⟩] 0 ("") ("") 7
    (by decide) rfl

/-! ### Claim C8 -/

/-- Claim C8 counterexample: the file `photo.Jpg` has extension `jpg`
under case-insensitive comparison, yet it matches none of the four glob
patterns of the scan, so it is excluded — the scan is not
case-insensitive. -/
theorem c8_counterexample :
    specCaseInsensitiveIncluded (("photo.Jpg").data) = true
    ∧ scanIncluded (("photo.Jpg").data) = false := by
  constructor
  · decide
  · decide

/-- Claim C8 amended: the scan selects exactly the files matching the
four case-sensitive glob patterns `*.jpg`, `*.JPG`, `*.png`, `*.PNG`.
Every file it includes does have extension jpg or png under
case-insensitive comparison, but the converse fails: mixed-case
extensions such as `.Jpg` are excluded. -/
theorem c8_amended (name : Name) (h : scanIncluded name = true) :
    specCaseInsensitiveIncluded name = true := by
  have key : ∀ (e1 e2 : Name), globExt e1 name = true →
      (('.' :: e1).map Char.toLower) = '.' :: e2 →
      globExt e2 (name.map Char.toLower) = true := by
    intro e1 e2 h1 h2
    have hs : ('.' :: e1) <:+ name := of_decide_eq_true h1
    have hm := hs.map Char.toLower
    rw [h2] at hm
    exact decide_eq_true hm
  simp only [scanIncluded, Bool.or_eq_true] at h
  simp only [specCaseInsensitiveIncluded, Bool.or_eq_true]
  rcases h with ((h | h) | h) | h
  · exact Or.inl (key _ _ h (by decide))
  · exact Or.inl (key _ _ h (by decide))
  · exact Or.inr (key _ _ h (by decide))
  · exact Or.inr (key _ _ h (by decide))

/-- Claim C8 amended, witness at a concrete input. -/
theorem c8_amended_witness :
    specCaseInsensitiveIncluded (("a.jpg").data) = true :=
  c8_amended (("a.jpg").data) (by decide)

/-! ### Claim C9 -/

/-- Claim C9 (confirmed): `toggle_hide` is total in the path (the model
never consults the disk), a single application flips the path's
membership in the hidden set, and applying it twice returns the hidden
set to exactly its prior state. -/
theorem c9_toggle_involutive (hidden : Finset Name) (path : Name) :
    toggle_hide (toggle_hide hidden path) path = hidden
    ∧ (path ∈ toggle_hide hidden path ↔ path ∉ hidden) := by
  by_cases h : path ∈ hidden
  · have h2 : path ∉ hidden.erase path := by simp
    have ht : toggle_hide hidden path = hidden.erase path := by
      rw [toggle_hide, if_pos h]
    constructor
    · rw [ht, toggle_hide, if_neg h2, Finset.insert_erase h]
    · rw [ht]
      simp [h]
  · have h2 : path ∈ insert path hidden := Finset.mem_insert_self _ _
    have ht : toggle_hide hidden path = insert path hidden := by
      rw [toggle_hide, if_neg h]
    constructor
    · rw [ht, toggle_hide, if_pos h2, Finset.erase_insert h]
    · rw [ht]
      simp [h]

/-! ### Claim C10 -/

/-- Claim C10 (confirmed): whatever happens inside the background job —
success, encoder failure, or a staging fault — the `finally` block leaves
`is_creating = false` when the thread exits, and a `create_slideshow`
call made when the flag is down is never rejected as already-in-progress,
so the supervisor cannot stay stuck in the running state after a job
finishes. -/
theorem c10_flag_reset (fs0 : FS) (images : List Image) (encoderExit : Int)
    (encStdout encStderr : String) (outputSize : Nat) :
    (createSlideshowThread fs0 images encoderExit encStdout encStderr
        outputSize).isCreating = false
    ∧ ∀ (s : AppState) (d : Option Name), s.isCreating = false →
        (create_slideshow s d).1 ≠ .alreadyInProgress := by
  constructor
  · cases h : stageLoop 0 images (mkdirExistOk fs0).tempContents with
    | error c => simp [createSlideshowThread, h]
    | ok c =>
      by_cases he : encoderExit = 0 <;> simp [createSlideshowThread, h, he]
  · intro s d hs
    cases d with
    | none =>
      simp only [create_slideshow, hs]
      split_ifs <;> simp_all
    | some nm =>
      simp only [create_slideshow, hs]
      split_ifs <;> simp_all

/-- Claim C10 witness at concrete inputs: a job with a failing link
creation still ends with the flag down, and a fresh submit afterwards is
not rejected as already-in-progress. -/
theorem c10_witness :
    (createSlideshowThread ⟨false, ∅⟩ [⟨(("a.jpg").data), false⟩] 0 ("") ("")
        0).isCreating = false
    ∧ (create_slideshow ⟨false, [], ∅⟩ none).1 ≠ .alreadyInProgress :=
  ⟨(c10_flag_reset ⟨false, ∅⟩ [⟨(("a.jpg").data), false⟩] 0 ("") ("") 0).1,
   (c10_flag_reset ⟨false, ∅⟩ [⟨(("a.jpg").data), false⟩] 0 ("") ("") 0).2
     ⟨false, [], ∅⟩ none rfl⟩

end Slideshow
